import Mathlib

/-!
# Panda-Management-System: verification of the spa records manager

A shallow embedding, in Lean 4, of the core of the Panda-Management-System
repository: the shared utilities (`utils/validators.py`, `utils/formatters.py`),
the appointment store (`managers/appointments_manager.py`), the service catalog
(`managers/services_manager.py`), the finance summarizer
(`managers/finance_manager.py`) and the recommendation engine
(`managers/recommendations_manager.py`).

Modelling conventions:
* Python `dict`s (which preserve insertion order) become association lists;
  in-place mutation becomes explicit state passing.
* Python `int` becomes `Int`, Python `float` becomes `ℚ` (exact arithmetic in
  place of IEEE doubles; the repository only ever adds and rounds prices).
* `isinstance` checks against the declared parameter types are discharged by
  the Lean types themselves; only the checks that can fail for well-typed
  arguments (e.g. an omitted optional argument) are kept as runtime branches.
* `datetime` values become a record of numeric components; string formatting
  and parsing of dates is carried out character by character, restricted to
  ASCII input and single-space separation (the only inputs the repository
  produces or documents).
* Functions that print become functions returning the structured content of
  what would be printed; functions that can raise an uncaught exception
  return `Option`, with `none` for the raised case.
-/

set_option autoImplicit false

namespace PandaSpa

/-! ## Decimal digit rendering and parsing (Python `str`/`int` on numbers) -/

/-- The numeric value of a decimal digit character. -/
def charDigit (c : Char) : Nat := c.toNat - 48

/-- The decimal digit character for a value below 10 (as CPython renders it). -/
def digitChar (d : Nat) : Char := Char.ofNat (48 + d)

/-- Little-endian base-10 digits, structurally recursive on a fuel bound so
that it evaluates by kernel reduction (the fuel only needs to dominate the
digit count). -/
def digitsRevAux : Nat → Nat → List Nat
  | 0, _ => []
  | fuel + 1, n => if n = 0 then [] else n % 10 :: digitsRevAux fuel (n / 10)

/-- Little-endian base-10 digits of `n` (empty for zero). -/
def natDigitsRev (n : Nat) : List Nat := digitsRevAux n n

theorem digitsRevAux_eq (fuel : Nat) :
    ∀ n, n ≤ fuel → digitsRevAux fuel n = Nat.digits 10 n := by
  induction fuel with
  | zero =>
      intro n h
      interval_cases n
      simp [digitsRevAux]
  | succ fuel ih =>
      intro n h
      by_cases h0 : n = 0
      · subst h0; simp [digitsRevAux]
      · rw [show digitsRevAux (fuel + 1) n = n % 10 :: digitsRevAux fuel (n / 10)
            from by simp [digitsRevAux, h0]]
        have hdiv := Nat.div_lt_self (Nat.pos_of_ne_zero h0)
          (by norm_num : 1 < 10)
        rw [ih (n / 10) (by omega),
          Nat.digits_def' (by norm_num : 1 < 10) (Nat.pos_of_ne_zero h0)]

theorem natDigitsRev_eq (n : Nat) : natDigitsRev n = Nat.digits 10 n :=
  digitsRevAux_eq n n le_rfl

/-- Decimal rendering of a natural number, as Python `str` renders a
non-negative `int` (no sign, no leading zeros, `"0"` for zero). -/
def natChars (n : Nat) : List Char :=
  if n = 0 then ['0'] else (natDigitsRev n).reverse.map digitChar

/-- Value of a list of decimal digit characters, most significant first. -/
def digitsVal (cs : List Char) : Nat :=
  cs.foldl (fun a c => 10 * a + charDigit c) 0

/-- Python `str` of an `int`: optional minus sign followed by decimal digits. -/
def intChars (i : Int) : List Char :=
  if i < 0 then '-' :: natChars i.natAbs else natChars i.toNat

/-- Parse a run of decimal digits of length between 1 and `maxLen` (the digit
groups accepted by a CPython `strptime` numeric directive). -/
def parseNum (maxLen : Nat) (cs : List Char) : Option Nat :=
  if cs.length = 0 ∨ maxLen < cs.length ∨ ¬ cs.all (·.isDigit) then none
  else some (digitsVal cs)

/-- Python `int(s)` on a decimal string key: optional minus sign followed by
decimal digits (the forms `save_appointments_to_json` can produce). -/
def parseIntChars (cs : List Char) : Option Int :=
  if cs.head? = some '-' then
    if cs.tail.length = 0 ∨ ¬ cs.tail.all (·.isDigit) then none
    else some (-(digitsVal cs.tail : Int))
  else
    if cs.length = 0 ∨ ¬ cs.all (·.isDigit) then none
    else some (digitsVal cs : Int)

/-! ### Round-trip lemmas for digit rendering -/

theorem foldl_mul_add (m : List Nat) (s : Nat) :
    List.foldl (fun a d => 10 * a + d) s m =
      s * 10 ^ m.length + List.foldl (fun a d => 10 * a + d) 0 m := by
  induction m generalizing s with
  | nil => simp
  | cons e m ih =>
      simp only [List.foldl_cons, List.length_cons]
      rw [ih (10 * s + e), ih (10 * 0 + e)]
      ring

theorem charDigit_digitChar {d : Nat} (h : d < 10) :
    charDigit (digitChar d) = d := by
  interval_cases d <;> decide

theorem isDigit_digitChar {d : Nat} (h : d < 10) : (digitChar d).isDigit := by
  interval_cases d <;> decide

theorem digitsVal_rev_map (l : List Nat) (h : ∀ d ∈ l, d < 10) :
    digitsVal (l.reverse.map digitChar) = Nat.ofDigits 10 l := by
  induction l with
  | nil => simp [digitsVal, Nat.ofDigits]
  | cons d l ih =>
      rw [List.reverse_cons, List.map_append]
      unfold digitsVal at *
      rw [List.foldl_append]
      simp only [List.map_cons, List.map_nil, List.foldl_cons, List.foldl_nil]
      rw [ih (fun x hx => h x (List.mem_cons_of_mem _ hx)),
        Nat.ofDigits_cons, charDigit_digitChar (h d (List.mem_cons_self _ _))]
      ring

theorem digitsVal_natChars (n : Nat) : digitsVal (natChars n) = n := by
  by_cases h0 : n = 0
  · subst h0; decide
  · unfold natChars
    rw [if_neg h0, natDigitsRev_eq,
      digitsVal_rev_map _ (fun d hd => Nat.digits_lt_base (by norm_num) hd),
      Nat.ofDigits_digits]

theorem natChars_all_digits (n : Nat) : (natChars n).all (·.isDigit) := by
  by_cases h0 : n = 0
  · subst h0; decide
  · unfold natChars
    rw [natDigitsRev_eq]
    simp only [h0, if_false, List.all_eq_true, List.mem_reverse, List.mem_map]
    rintro c ⟨d, hd, rfl⟩
    exact isDigit_digitChar (Nat.digits_lt_base (by norm_num) hd)

theorem natChars_ne_nil (n : Nat) : natChars n ≠ [] := by
  by_cases h0 : n = 0
  · subst h0; decide
  · unfold natChars
    rw [natDigitsRev_eq]
    simp only [h0, if_false, ne_eq, List.map_eq_nil_iff, List.reverse_eq_nil_iff]
    exact Nat.digits_ne_nil_iff_ne_zero.mpr h0

theorem natChars_length_le {n k : Nat} (h : n < 10 ^ k) (hk : 1 ≤ k) :
    (natChars n).length ≤ k := by
  by_cases h0 : n = 0
  · subst h0; simpa [natChars] using hk
  · unfold natChars
    rw [natDigitsRev_eq]
    simp only [h0, if_false, List.length_reverse, List.length_map]
    rw [Nat.digits_len 10 n (by norm_num) h0]
    have := Nat.log_lt_of_lt_pow h0 h
    omega

theorem parseNum_natChars {n k : Nat} (h : n < 10 ^ k) (hk : 1 ≤ k) :
    parseNum k (natChars n) = some n := by
  unfold parseNum
  have h1 := natChars_ne_nil n
  have h2 := natChars_length_le h hk
  have h3 := natChars_all_digits n
  rw [if_neg, digitsVal_natChars]
  push_neg
  refine ⟨fun hl => h1 (List.length_eq_zero.mp hl), ?_, by simpa using h3⟩
  omega

theorem natChars_head_ne_dash (n : Nat) {c : Char} {rest : List Char}
    (h : natChars n = c :: rest) : c ≠ '-' := by
  have h3 := natChars_all_digits n
  rw [h] at h3
  simp only [List.all_cons, Bool.and_eq_true] at h3
  intro hc
  rw [hc] at h3
  exact absurd h3.1 (by decide)

theorem parseIntChars_intChars (i : Int) : parseIntChars (intChars i) = some i := by
  unfold intChars
  by_cases hneg : i < 0
  · rw [if_pos hneg]
    have h1 := natChars_ne_nil i.natAbs
    have h3 := natChars_all_digits i.natAbs
    unfold parseIntChars
    rw [if_pos (by simp), if_neg]
    · simp only [List.tail_cons]
      rw [digitsVal_natChars]
      congr 1
      omega
    · simp only [List.tail_cons]
      push_neg
      exact ⟨fun hl => h1 (List.length_eq_zero.mp hl), by simpa using h3⟩
  · rw [if_neg hneg]
    have h1 := natChars_ne_nil i.toNat
    have h3 := natChars_all_digits i.toNat
    obtain ⟨c, rest, hm⟩ := List.exists_cons_of_ne_nil h1
    unfold parseIntChars
    rw [if_neg (by
      rw [hm]
      simp only [List.head?_cons, Option.some.injEq]
      exact natChars_head_ne_dash i.toNat hm), if_neg, digitsVal_natChars]
    · congr 1
      omega
    · push_neg
      exact ⟨fun hl => h1 (List.length_eq_zero.mp hl), by simpa using h3⟩

/-! ## String case transformations (`utils/formatters.py`, ASCII fragment)

Python's `str.lower` / `str.title` are modelled character by character, which
agrees with CPython on the ASCII text this repository handles. -/

/-- Python `s.lower()` (ASCII). -/
def strLower (s : String) : String := String.mk (s.data.map Char.toLower)

/-- One step of Python `str.title()`: `prevAlpha` records whether the previous
character was alphabetic; an alphabetic character starting a word is
upper-cased, any other alphabetic character is lower-cased. -/
def titleStep (acc : List Char × Bool) (c : Char) : List Char × Bool :=
  if c.isAlpha then
    (acc.1 ++ [if acc.2 then c.toLower else c.toUpper], true)
  else
    (acc.1 ++ [c], false)

/-- Python `s.title()` (ASCII). -/
def pyTitle (s : String) : String :=
  String.mk (s.data.foldl titleStep ([], false)).1

/-- `formatters.normalize_name`: replace underscores with spaces, then
title-case — the repository's display form of a slug. -/
def normalize_name (s : String) : String :=
  pyTitle (String.mk (s.data.map (fun c => if c = '_' then ' ' else c)))

/-- `formatters.denormalize_name`: lower-case, then replace spaces with
underscores — the repository's slug form of a display name.  (Order of the
two steps matches the source; the operations commute per character.) -/
def denormalize_name (s : String) : String :=
  String.mk ((strLower s).data.map (fun c => if c = ' ' then '_' else c))

/-- `ServicesManager._normalize_name`: replace spaces with underscores, then
lower-case. -/
def smNormalize (s : String) : String :=
  strLower (String.mk (s.data.map (fun c => if c = ' ' then '_' else c)))

/-! ## Naive datetimes (`datetime.datetime`, second/microsecond resolution) -/

/-- A naive Python `datetime`: numeric components, no timezone. -/
structure DateTime where
  year : Nat
  month : Nat
  day : Nat
  hour : Nat
  minute : Nat
  second : Nat
  micro : Nat
deriving DecidableEq, Repr

/-- Gregorian leap year (as `datetime` computes month lengths). -/
def isLeap (y : Nat) : Bool :=
  (y % 4 = 0 && y % 100 ≠ 0) || y % 400 = 0

/-- Number of days in a month. -/
def daysInMonth (y m : Nat) : Nat :=
  if m = 2 then (if isLeap y then 29 else 28)
  else if m = 4 ∨ m = 6 ∨ m = 9 ∨ m = 11 then 30
  else 31

/-- The argument ranges accepted by the `datetime` constructor (micro below
one million; year between `MINYEAR = 1` and `MAXYEAR = 9999`). -/
def ValidDate (d : DateTime) : Prop :=
  1 ≤ d.year ∧ d.year ≤ 9999 ∧ 1 ≤ d.month ∧ d.month ≤ 12 ∧
    1 ≤ d.day ∧ d.day ≤ daysInMonth d.year d.month ∧
    d.hour ≤ 23 ∧ d.minute ≤ 59 ∧ d.second ≤ 59 ∧ d.micro ≤ 999999

instance : DecidablePred ValidDate := fun d => by
  unfold ValidDate
  infer_instance

/-- Lexicographic comparison of datetimes, as Python compares `datetime`
values component-wise. -/
def DateTime.ltb (a b : DateTime) : Bool :=
  if a.year ≠ b.year then decide (a.year < b.year)
  else if a.month ≠ b.month then decide (a.month < b.month)
  else if a.day ≠ b.day then decide (a.day < b.day)
  else if a.hour ≠ b.hour then decide (a.hour < b.hour)
  else if a.minute ≠ b.minute then decide (a.minute < b.minute)
  else if a.second ≠ b.second then decide (a.second < b.second)
  else if a.micro ≠ b.micro then decide (a.micro < b.micro)
  else false

/-- Truncation to second resolution: what rendering with
`"%Y-%m-%d %H:%M:%S"` and parsing back preserves. -/
def truncSec (d : DateTime) : DateTime := { d with micro := 0 }

/-! ## Splitting character lists (the separator structure `strptime` sees) -/

/-- Split a character list on a separator character (every occurrence; empty
runs are kept, like Python `str.split(sep)`). -/
def splitOnChar (sep : Char) : List Char → List (List Char)
  | [] => [[]]
  | c :: cs =>
      if c = sep then [] :: splitOnChar sep cs
      else (c :: (splitOnChar sep cs).headD []) :: (splitOnChar sep cs).tail

theorem splitOnChar_no_sep {sep : Char} {l : List Char}
    (h : ∀ c ∈ l, c ≠ sep) : splitOnChar sep l = [l] := by
  induction l with
  | nil => rfl
  | cons c cs ih =>
      simp only [splitOnChar]
      rw [if_neg (h c (List.mem_cons_self _ _)),
        ih (fun x hx => h x (List.mem_cons_of_mem _ hx))]
      rfl

theorem splitOnChar_append {sep : Char} {l1 l2 : List Char}
    (h : ∀ c ∈ l1, c ≠ sep) :
    splitOnChar sep (l1 ++ sep :: l2) = l1 :: splitOnChar sep l2 := by
  induction l1 with
  | nil => simp [splitOnChar]
  | cons c cs ih =>
      rw [List.cons_append]
      simp only [splitOnChar]
      rw [if_neg (h c (List.mem_cons_self _ _)),
        ih (fun x hx => h x (List.mem_cons_of_mem _ hx))]
      rfl

/-! ## Zero-padded rendering (`strftime` numeric directives) -/

/-- `%m`, `%d`, `%H`, `%M`, `%S`: two digits, zero-padded. -/
def pad2 (n : Nat) : List Char :=
  if n < 10 then '0' :: natChars n else natChars n

/-- `%Y`: four digits, zero-padded. -/
def pad4 (n : Nat) : List Char :=
  List.replicate (4 - (natChars n).length) '0' ++ natChars n

theorem digitsVal_zeros_append (k : Nat) (cs : List Char) :
    digitsVal (List.replicate k '0' ++ cs) = digitsVal cs := by
  induction k with
  | zero => simp
  | succ k ih =>
      simp only [List.replicate_succ, List.cons_append]
      unfold digitsVal at *
      simpa [charDigit] using ih

theorem pad2_spec {n : Nat} (h : n < 100) :
    pad2 n ≠ [] ∧ (pad2 n).length ≤ 2 ∧ (pad2 n).all (·.isDigit) ∧
      digitsVal (pad2 n) = n := by
  unfold pad2
  by_cases h10 : n < 10
  · rw [if_pos h10]
    have hlen := natChars_length_le (n := n) (k := 1) (by omega) (by omega)
    have hz : digitsVal ('0' :: natChars n) =
        digitsVal (List.replicate 1 '0' ++ natChars n) := by simp
    refine ⟨by simp, by simp; omega, ?_, ?_⟩
    · simpa using natChars_all_digits n
    · rw [hz, digitsVal_zeros_append, digitsVal_natChars]
  · rw [if_neg h10]
    have hlen := natChars_length_le (n := n) (k := 2) (by omega) (by omega)
    exact ⟨natChars_ne_nil n, hlen, natChars_all_digits n, digitsVal_natChars n⟩

theorem pad4_spec {n : Nat} (h : n < 10000) :
    pad4 n ≠ [] ∧ (pad4 n).length ≤ 4 ∧ (pad4 n).all (·.isDigit) ∧
      digitsVal (pad4 n) = n := by
  unfold pad4
  have hlen := natChars_length_le (n := n) (k := 4) (by omega) (by omega)
  have hne := natChars_ne_nil n
  refine ⟨by simp [hne], ?_, ?_, ?_⟩
  · simp only [List.length_append, List.length_replicate]
    omega
  · have := natChars_all_digits n
    simp only [List.all_append, Bool.and_eq_true]
    constructor
    · simp only [List.all_eq_true, List.mem_replicate]
      rintro c ⟨-, rfl⟩
      decide
    · exact this
  · rw [digitsVal_zeros_append, digitsVal_natChars]

theorem parseNum_pad2 {n : Nat} (h : n < 100) : parseNum 2 (pad2 n) = some n := by
  obtain ⟨h1, h2, h3, h4⟩ := pad2_spec h
  unfold parseNum
  rw [if_neg, h4]
  push_neg
  refine ⟨fun hl => h1 (List.length_eq_zero.mp hl), by omega, by simpa using h3⟩

theorem parseNum_pad4 {n : Nat} (h : n < 10000) : parseNum 4 (pad4 n) = some n := by
  obtain ⟨h1, h2, h3, h4⟩ := pad4_spec h
  unfold parseNum
  rw [if_neg, h4]
  push_neg
  refine ⟨fun hl => h1 (List.length_eq_zero.mp hl), by omega, by simpa using h3⟩

theorem pad2_not_sep {n : Nat} (h : n < 100) :
    ∀ c ∈ pad2 n, c.isDigit := by
  obtain ⟨-, -, h3, -⟩ := pad2_spec h
  simpa [List.all_eq_true] using h3

theorem pad4_not_sep {n : Nat} (h : n < 10000) :
    ∀ c ∈ pad4 n, c.isDigit := by
  obtain ⟨-, -, h3, -⟩ := pad4_spec h
  simpa [List.all_eq_true] using h3

/-! ## Date parsing and formatting (`parse_datetime`, `strftime`, `strptime`)

`utils/formatters.py` tries, in order, `%Y-%m-%d %H:%M`, `%d-%m-%Y %H:%M`,
`%d/%m/%Y %H:%M`; the JSON layer uses `%Y-%m-%d %H:%M:%S` on both sides.
Each CPython numeric directive consumes one to `maxLen` digits and enforces
its range; the `datetime` constructor then enforces calendar validity.  The
embedding accepts exactly the digit-clean, single-space inputs the repository
produces and documents. -/

/-- The `datetime(...)` constructor applied to parsed fields: `None` models
the `ValueError` that an out-of-range component raises inside `strptime`. -/
def mkDateTime (y m d h mi s : Nat) : Option DateTime :=
  if 1 ≤ y ∧ y ≤ 9999 ∧ 1 ≤ m ∧ m ≤ 12 ∧ 1 ≤ d ∧ d ≤ daysInMonth y m ∧
      h ≤ 23 ∧ mi ≤ 59 ∧ s ≤ 59 then
    some ⟨y, m, d, h, mi, s, 0⟩
  else none

/-- Parse `HH:MM` (directives `%H:%M`). -/
def parseHM (cs : List Char) : Option (Nat × Nat) :=
  match splitOnChar ':' cs with
  | [hs, mis] => do
      let h ← parseNum 2 hs
      let mi ← parseNum 2 mis
      pure (h, mi)
  | _ => none

/-- Parse `HH:MM:SS` (directives `%H:%M:%S`). -/
def parseHMS (cs : List Char) : Option (Nat × Nat × Nat) :=
  match splitOnChar ':' cs with
  | [hs, mis, ss] => do
      let h ← parseNum 2 hs
      let mi ← parseNum 2 mis
      let s ← parseNum 2 ss
      pure (h, mi, s)
  | _ => none

/-- Parse a date in `%Y<sep>%m<sep>%d` order. -/
def parseYMD (sep : Char) (cs : List Char) : Option (Nat × Nat × Nat) :=
  match splitOnChar sep cs with
  | [ys, ms, ds] => do
      let y ← parseNum 4 ys
      let m ← parseNum 2 ms
      let d ← parseNum 2 ds
      pure (y, m, d)
  | _ => none

/-- Parse a date in `%d<sep>%m<sep>%Y` order (result still `(y, m, d)`). -/
def parseDMY (sep : Char) (cs : List Char) : Option (Nat × Nat × Nat) :=
  match splitOnChar sep cs with
  | [ds, ms, ys] => do
      let d ← parseNum 2 ds
      let m ← parseNum 2 ms
      let y ← parseNum 4 ys
      pure (y, m, d)
  | _ => none

/-- `strptime(text, "<date> %H:%M")` for a given date layout: seconds and
microseconds default to zero. -/
def parseMinuteWith (dparse : List Char → Option (Nat × Nat × Nat))
    (cs : List Char) : Option DateTime :=
  match splitOnChar ' ' cs with
  | [dp, tp] => do
      let (y, m, d) ← dparse dp
      let (h, mi) ← parseHM tp
      mkDateTime y m d h mi 0
  | _ => none

/-- `formatters.parse_datetime`: try `%Y-%m-%d %H:%M`, then `%d-%m-%Y %H:%M`,
then `%d/%m/%Y %H:%M`; `None` if no format matches. -/
def parse_datetime (s : String) : Option DateTime :=
  (parseMinuteWith (parseYMD '-') s.data).orElse fun _ =>
    (parseMinuteWith (parseDMY '-') s.data).orElse fun _ =>
      parseMinuteWith (parseDMY '/') s.data

/-- `strptime(text, "%Y-%m-%d %H:%M:%S")` — the load side of the JSON layer. -/
def parseSecsChars (cs : List Char) : Option DateTime :=
  match splitOnChar ' ' cs with
  | [dp, tp] => do
      let (y, m, d) ← parseYMD '-' dp
      let (h, mi, s) ← parseHMS tp
      mkDateTime y m d h mi s
  | _ => none

/-- The date half of `strftime("%Y-%m-%d %H:%M:%S")`. -/
def dateChars (d : DateTime) : List Char :=
  pad4 d.year ++ ('-' :: (pad2 d.month ++ ('-' :: pad2 d.day)))

/-- The time half of `strftime("%Y-%m-%d %H:%M:%S")`. -/
def timeChars (d : DateTime) : List Char :=
  pad2 d.hour ++ (':' :: (pad2 d.minute ++ (':' :: pad2 d.second)))

/-- `strftime("%Y-%m-%d %H:%M:%S")` — the save side of the JSON layer. -/
def formatSecsChars (d : DateTime) : List Char :=
  dateChars d ++ ' ' :: timeChars d

theorem daysInMonth_le (y m : Nat) : daysInMonth y m ≤ 31 := by
  unfold daysInMonth
  split
  · split <;> omega
  · split <;> omega

theorem digit_ne_of_not_digit {c s : Char} (hc : c.isDigit) (hs : ¬ s.isDigit) :
    c ≠ s := fun h => hs (h ▸ hc)

theorem parseSecsChars_format {d : DateTime} (h : ValidDate d) :
    parseSecsChars (formatSecsChars d) = some (truncSec d) := by
  obtain ⟨hy1, hy2, hm1, hm2, hd1, hd2, hh, hmi, hs, -⟩ := h
  have hdm : d.day < 100 := by have := daysInMonth_le d.year d.month; omega
  have hsplit : splitOnChar ' ' (formatSecsChars d) = [dateChars d, timeChars d] := by
    unfold formatSecsChars
    rw [splitOnChar_append, splitOnChar_no_sep]
    · intro c hc
      unfold timeChars at hc
      rcases List.mem_append.mp hc with h1 | h1
      · exact digit_ne_of_not_digit (pad2_not_sep (by omega) c h1) (by decide)
      · rcases List.mem_cons.mp h1 with rfl | h1
        · decide
        · rcases List.mem_append.mp h1 with h2 | h2
          · exact digit_ne_of_not_digit (pad2_not_sep (by omega) c h2) (by decide)
          · rcases List.mem_cons.mp h2 with rfl | h2
            · decide
            · exact digit_ne_of_not_digit (pad2_not_sep (by omega) c h2) (by decide)
    · intro c hc
      unfold dateChars at hc
      rcases List.mem_append.mp hc with h1 | h1
      · exact digit_ne_of_not_digit (pad4_not_sep (by omega) c h1) (by decide)
      · rcases List.mem_cons.mp h1 with rfl | h1
        · decide
        · rcases List.mem_append.mp h1 with h2 | h2
          · exact digit_ne_of_not_digit (pad2_not_sep (by omega) c h2) (by decide)
          · rcases List.mem_cons.mp h2 with rfl | h2
            · decide
            · exact digit_ne_of_not_digit (pad2_not_sep (by omega) c h2) (by decide)
  have hdate : parseYMD '-' (dateChars d) = some (d.year, d.month, d.day) := by
    unfold parseYMD dateChars
    rw [splitOnChar_append (fun c hc =>
        digit_ne_of_not_digit (pad4_not_sep (n := d.year) (by omega) c hc) (by decide)),
      splitOnChar_append (fun c hc =>
        digit_ne_of_not_digit (pad2_not_sep (n := d.month) (by omega) c hc) (by decide)),
      splitOnChar_no_sep (fun c hc =>
        digit_ne_of_not_digit (pad2_not_sep hdm c hc) (by decide))]
    simp [parseNum_pad4 (n := d.year) (by omega),
      parseNum_pad2 (n := d.month) (by omega), parseNum_pad2 hdm]
  have htime : parseHMS (timeChars d) = some (d.hour, d.minute, d.second) := by
    unfold parseHMS timeChars
    rw [splitOnChar_append (fun c hc =>
        digit_ne_of_not_digit (pad2_not_sep (n := d.hour) (by omega) c hc) (by decide)),
      splitOnChar_append (fun c hc =>
        digit_ne_of_not_digit (pad2_not_sep (n := d.minute) (by omega) c hc) (by decide)),
      splitOnChar_no_sep (fun c hc =>
        digit_ne_of_not_digit (pad2_not_sep (n := d.second) (by omega) c hc) (by decide))]
    simp [parseNum_pad2 (show d.hour < 100 by omega),
      parseNum_pad2 (show d.minute < 100 by omega),
      parseNum_pad2 (show d.second < 100 by omega)]
  unfold parseSecsChars
  rw [hsplit]
  simp only [hdate, htime, Option.bind_eq_bind, Option.some_bind]
  unfold mkDateTime
  rw [if_pos (by exact ⟨hy1, hy2, hm1, hm2, hd1, hd2, hh, hmi, hs⟩)]
  unfold truncSec
  rfl

/-! ## Validators (`utils/validators.py`) -/

/-- `validators.validate_phone_id`: the `isinstance(phone_id, int)` branch is
discharged by the `Int` type; remaining checks are sign and decimal length of
`str(phone_id)`.  Returns the error message, or `none` when valid. -/
def validate_phone_id (phone_id : Int) : Option String :=
  if phone_id < 0 then some "[Negative number not allowed]"
  else if (natChars phone_id.toNat).length ≠ 8 then
    some "[Phone ID must contain exactly 8 digits]"
  else none

/-! ## Service catalog (`managers/services_manager.py`)

The nested `dict` `category_slug -> service_slug -> attributes` becomes a
nested association list preserving insertion order; prices and durations are
exact rationals in place of Python numbers. -/

/-- The per-service attribute record. -/
structure ServiceData where
  price : ℚ
  currency : String
  duration : ℚ
  description : String
deriving DecidableEq, Repr

/-- The nested `category -> service -> data` mapping. -/
abbrev Catalog := List (String × List (String × ServiceData))

/-- A `ServicesManager`: its service mapping and its default currency. -/
structure ServicesState where
  services : Catalog
  default_currency : String
deriving DecidableEq, Repr

def PROVIDED_NOT_STR : String := "[Provided argument must be string]"

def NEGATIVE_NUM_NOT_ALLOWED : String := "[Negative number not allowed]"

/-- `ServicesManager._find_service_data`: normalize the query, then scan the
categories in order, comparing each stored key lower-cased against the
normalized query; first hit wins. -/
def find_service_data (sm : ServicesState) (name : String) :
    Option (String × ServiceData) :=
  let norm := smNormalize name
  sm.services.findSome? fun cat =>
    (cat.2.find? fun svc => strLower svc.1 == norm).map fun svc => (cat.1, svc.2)

/-- `ServicesManager.service_exists`: normalizes and delegates to
`_find_service_data` (which normalizes again; the source's
`if not result: return False` guard is vacuous because `result` is always a
pair, and `bool(category and details)` reduces to whether a hit was found). -/
def service_exists (sm : ServicesState) (service_name : String) : Bool :=
  (find_service_data sm (smNormalize service_name)).isSome

/-- `ServicesManager.get_service_data`: raw lookup of a service record. -/
def get_service_data (sm : ServicesState) (name : String) : Option ServiceData :=
  (find_service_data sm name).map (·.2)

def dupServiceMsg (name category : String) : String :=
  "[Service \"" ++ pyTitle name ++ "\" already exist in \"" ++
    pyTitle category ++ "\"]"

def addedServiceMsg (name category : String) : String :=
  "[Service \"" ++ pyTitle name ++ "\" successfully added to \"" ++
    pyTitle category ++ "\"]"

/-- `ServicesManager.add_service`.  The source first checks
`all(isinstance(arg, str) for arg in [category, name, description, currency])`
— with the optional `currency` parameter defaulting to `None`, so an omitted
currency fails this check; the later
`currency = currency if currency is not None else self.default_currency`
fallback is unreachable for `None`.  Then price/duration sign checks, category
auto-creation, and the duplicate check within the (possibly just created)
category. -/
def add_service (sm : ServicesState) (category name : String) (price : ℚ)
    (duration : ℚ) (description : String) (currency : Option String) :
    ServicesState × String :=
  match currency with
  | none => (sm, PROVIDED_NOT_STR)
  | some curr =>
      if price < 0 then (sm, NEGATIVE_NUM_NOT_ALLOWED)
      else if duration ≤ 0 then (sm, NEGATIVE_NUM_NOT_ALLOWED)
      else
        let norm_category := smNormalize category
        let norm_name := smNormalize name
        let services1 :=
          if sm.services.any (·.1 == norm_category) then sm.services
          else sm.services ++ [(norm_category, [])]
        if ((services1.find? (·.1 == norm_category)).map
            (fun cat => cat.2.any (·.1 == norm_name))).getD false then
          ({ sm with services := services1 }, dupServiceMsg name category)
        else
          ({ sm with services := services1.map fun cat =>
              if cat.1 == norm_category then
                (cat.1, cat.2 ++
                  [(norm_name, ⟨price, curr, duration, description⟩)])
              else cat },
            addedServiceMsg name category)

/-! ## Appointment store (`managers/appointments_manager.py`) -/

/-- One appointment record (`dict` with the four fixed keys). -/
structure Appointment where
  first_name : String
  last_name : String
  service_name : String
  date_time : DateTime
deriving DecidableEq, Repr

/-- The `phone_id -> appointment` mapping, in insertion order. -/
abbrev ApptStore := List (Int × Appointment)

def containsId (store : ApptStore) (phone_id : Int) : Bool :=
  store.any (·.1 == phone_id)

def lookupAppt (store : ApptStore) (phone_id : Int) : Option Appointment :=
  (store.find? (·.1 == phone_id)).map (·.2)

/-- Overwrite the value stored under an existing key, in place (Python dict
field assignment keeps the entry's position). -/
def setAppt (store : ApptStore) (phone_id : Int) (a : Appointment) : ApptStore :=
  store.map fun p => if p.1 == phone_id then (p.1, a) else p

def APPOINTMENT_DATA_NOT_FOUND : String := "[Existing appointment data not found]"

def PAST_APPT_NOT_ALLOWED : String := "[Cannot create appointment in the past]"

def INVALID_DATE_FORMAT : String :=
  "[Invalid date format. Use YYYY-MM-DD HH:MM or DD-MM-YYYY HH:MM]"

def INVALID_JSON_STRUCTURE : String := "[Invalid JSON structure]"

def ERROR_DECODING_JSON : String := "[Error decoding JSON file]"

def apptExistsMsg (phone_id : Int) : String :=
  "[Appointment for \"ID: " ++ String.mk (intChars phone_id) ++ "\" already exist]"

def serviceNotFoundMsg (service_name : String) : String :=
  "[Service \"" ++ pyTitle service_name ++ "\" not found]"

def apptAddedMsg (phone_id : Int) : String :=
  "[Appointment \"ID: " ++ String.mk (intChars phone_id) ++ "\" successfully added]"

def apptUpdatedMsg (phone_id : Int) : String :=
  "[Appointment \"ID: " ++ String.mk (intChars phone_id) ++ "\" successfully updated]"

/-- `AppointmentsManager.add_appointment`.  The wall clock `datetime.now()`
is an explicit `now` argument.  The `isinstance(str)` guard over the four
text arguments is discharged by the `String` types.  Checks run in source
order: phone-id validation, duplicate id, service existence, date parsing,
past rejection; only then is the record written (lower-cased names,
`normalize_name` applied to the service). -/
def add_appointment (sm : ServicesState) (store : ApptStore) (phone_id : Int)
    (firstname lastname service_name date_time : String) (now : DateTime) :
    ApptStore × String :=
  match validate_phone_id phone_id with
  | some err => (store, err)
  | none =>
      if containsId store phone_id then (store, apptExistsMsg phone_id)
      else if ¬ service_exists sm service_name then
        (store, serviceNotFoundMsg service_name)
      else
        match parse_datetime date_time with
        | none => (store, INVALID_DATE_FORMAT)
        | some dt =>
            if dt.ltb now then (store, PAST_APPT_NOT_ALLOWED)
            else
              (store ++ [(phone_id,
                  ⟨strLower firstname, strLower lastname,
                    normalize_name service_name, dt⟩)],
                apptAddedMsg phone_id)

/-- The tail of `update_appointment` handling the optional `date_time`
argument, after the earlier fields have already been written back. -/
def updateDate (store : ApptStore) (phone_id : Int) (a : Appointment)
    (date_time : Option String) (now : DateTime) : ApptStore × String :=
  match date_time with
  | none => (store, apptUpdatedMsg phone_id)
  | some dtext =>
      match parse_datetime dtext with
      | none => (store, INVALID_DATE_FORMAT)
      | some dt =>
          if dt.ltb now then (store, PAST_APPT_NOT_ALLOWED)
          else
            (setAppt store phone_id { a with date_time := dt },
              apptUpdatedMsg phone_id)

/-- `AppointmentsManager.update_appointment`.  The source fetches the live
`dict` for the id and then, field by field, validates and immediately writes
each supplied value; an error on a later field returns after the earlier
writes have already mutated the store.  The embedding threads the store
through each write to preserve exactly that behavior. -/
def update_appointment (sm : ServicesState) (store : ApptStore) (phone_id : Int)
    (firstname lastname service_name date_time : Option String)
    (now : DateTime) : ApptStore × String :=
  match validate_phone_id phone_id with
  | some err => (store, err)
  | none =>
      match lookupAppt store phone_id with
      | none => (store, APPOINTMENT_DATA_NOT_FOUND)
      | some a0 =>
          let a1 := match firstname with
            | none => a0
            | some f => { a0 with first_name := strLower f }
          let s1 := setAppt store phone_id a1
          let a2 := match lastname with
            | none => a1
            | some l => { a1 with last_name := strLower l }
          let s2 := setAppt s1 phone_id a2
          match service_name with
          | some sv =>
              if ¬ service_exists sm sv then (s2, serviceNotFoundMsg sv)
              else
                let a3 := { a2 with service_name := normalize_name sv }
                updateDate (setAppt s2 phone_id a3) phone_id a3 date_time now
          | none => updateDate s2 phone_id a2 date_time now

/-! ## JSON persistence of appointments

`save_appointments_to_json` writes a top-level object keyed by
`str(phone_id)` whose values carry the three name fields verbatim and the
timestamp rendered with `"%Y-%m-%d %H:%M:%S"`.  `load_appointments_from_json`
is modelled on the outcome of the file read: missing file, JSON decode error,
a non-`dict` top level, or a decoded object. -/

/-- One serialized appointment value, as written to / read from the file. -/
structure ApptJson where
  first_name : String
  last_name : String
  service_name : String
  date_time : String
deriving DecidableEq, Repr

/-- The serializable mapping `save_appointments_to_json` builds and dumps. -/
def save_appointments (store : ApptStore) : List (String × ApptJson) :=
  store.map fun p =>
    (String.mk (intChars p.1),
      { first_name := p.2.first_name
        last_name := p.2.last_name
        service_name := p.2.service_name
        date_time := String.mk (formatSecsChars p.2.date_time) })

/-- What reading and JSON-decoding the file can yield. -/
inductive LoadInput where
  | fileNotFound
  | decodeError
  | nonDict
  | dict (entries : List (String × ApptJson))
deriving DecidableEq, Repr

/-- Assignment `fixed_data[k] = v` into an insertion-ordered dict: overwrite
in place if the key exists, else append. -/
def dictInsert (l : ApptStore) (k : Int) (v : Appointment) : ApptStore :=
  if l.any (·.1 == k) then l.map fun p => if p.1 == k then (p.1, v) else p
  else l ++ [(k, v)]

/-- One loop iteration of the load: `int(phone_id)` on the key and
`strptime(details["date_time"], "%Y-%m-%d %H:%M:%S")` on the value; `none`
models the uncaught `ValueError` either can raise. -/
def parseEntry (e : String × ApptJson) : Option (Int × Appointment) := do
  let id ← parseIntChars e.1.data
  let dt ← parseSecsChars e.2.date_time.data
  pure (id,
    { first_name := e.2.first_name
      last_name := e.2.last_name
      service_name := e.2.service_name
      date_time := dt })

/-- The `fixed_data` dict built by the load loop. -/
def buildFixed (entries : List (String × ApptJson)) : Option ApptStore :=
  entries.foldlM (fun acc e => (parseEntry e).map fun p => dictInsert acc p.1 p.2) []

def loadedMsg (filename : String) : String :=
  "[Appointments loaded from \"" ++ filename ++ "\"]"

/-- `AppointmentsManager.load_appointments_from_json`: the two I/O failures
and the structure check return their error message with the store untouched;
a decoded object replaces the store wholesale once the loop finishes
(`none` models an uncaught exception escaping mid-loop, which also leaves
`self.appointments` unassigned). -/
def load_appointments (store : ApptStore) (filename : String)
    (input : LoadInput) : Option (ApptStore × String) :=
  match input with
  | .fileNotFound => some (store, APPOINTMENT_DATA_NOT_FOUND)
  | .decodeError => some (store, ERROR_DECODING_JSON)
  | .nonDict => some (store, INVALID_JSON_STRUCTURE)
  | .dict entries =>
      (buildFixed entries).map fun fixed => (fixed, loadedMsg filename)

/-! ## Finance summarizer (`managers/finance_manager.py`) -/

/-- Python `round` (round-half-to-even) on an exact rational. -/
def roundHalfEven (q : ℚ) : ℤ :=
  if q - ⌊q⌋ < 1 / 2 then ⌊q⌋
  else if 1 / 2 < q - ⌊q⌋ then ⌊q⌋ + 1
  else if ⌊q⌋ % 2 = 0 then ⌊q⌋ else ⌊q⌋ + 1

/-- Python `round(x, 2)` on an exact rational. -/
def round2 (q : ℚ) : ℚ := (roundHalfEven (q * 100) : ℚ) / 100

/-- `FinanceManager.get_total_income`: fold over every appointment (past ones
included), resolving the service through the catalog; a miss leaves the
accumulator unchanged (`service_data or {}` is falsy), with no error
signalled; the result is rounded to two decimals. -/
def get_total_income (sm : ServicesState) (store : ApptStore) : ℚ :=
  round2 (store.foldl
    (fun income p =>
      match get_service_data sm p.2.service_name with
      | some sd => income + sd.price
      | none => income)
    0)

/-- The income the specification describes: the sum over the store of the
catalog price of each appointment's service, an unresolved service
contributing exactly zero. -/
def incomeSpecSum (sm : ServicesState) (store : ApptStore) : ℚ :=
  (store.map fun p =>
    match get_service_data sm p.2.service_name with
    | some sd => sd.price
    | none => 0).sum

/-! ## Recommendation engine (`managers/recommendations_manager.py`) -/

/-- First-occurrence-ordered counts: the `Counter` over the service-name
list (a `dict` subclass, so keys sit in first-encounter order). -/
def countsList (l : List String) : List (String × Nat) :=
  l.foldl
    (fun acc s =>
      if acc.any (·.1 == s) then
        acc.map fun p => if p.1 == s then (p.1, p.2 + 1) else p
      else acc ++ [(s, 1)])
    []

/-- Stable insertion (descending by count): place `x` before the first
element whose count is not larger — later-inserted equal counts stay behind
earlier ones, matching the stable sort underlying `Counter.most_common`. -/
def insertDesc (x : String × Nat) : List (String × Nat) → List (String × Nat)
  | [] => [x]
  | y :: ys => if y.2 ≤ x.2 then x :: y :: ys else y :: insertDesc x ys

/-- Stable sort by descending count (`sorted(..., reverse=True)` is stable,
so ties keep their first-encounter order). -/
def sortDesc (l : List (String × Nat)) : List (String × Nat) :=
  l.foldr insertDesc []

/-- The service-name list the engine counts: every appointment's
`service_name` (the typed record always has the key). -/
def servicesOfStore (store : ApptStore) : List String :=
  store.map (·.2.service_name)

/-- `RecommendationsManager.get_popular_services`: non-positive (or non-`int`,
excluded by typing) `top_n` and an empty store yield `[]`; otherwise
`Counter(...).most_common(top_n)`. -/
def get_popular_services (store : ApptStore) (top_n : Int) :
    List (String × Nat) :=
  if top_n ≤ 0 then []
  else
    let services := servicesOfStore store
    if services.isEmpty then []
    else (sortDesc (countsList services)).take top_n.toNat

/-- The structured outcome of `recommend_for_customer` (which only prints):
either a validation error message, the "tried everything" notice, the
displayed numbered recommendations (slug with its popular-flame flag), or the
defensive favorites fallback. -/
inductive RecResult where
  | error (msg : String)
  | triedAll (first_name : String)
  | recs (entries : List (String × Bool))
  | favorites (entries : List String)
deriving DecidableEq, Repr

/-- `RecommendationsManager._validate_phone_id`: shape checks as in
`validators.validate_phone_id`, plus existence in the appointment store. -/
def rec_validate_phone_id (store : ApptStore) (phone_id : Int) : Option String :=
  if phone_id < 0 then some NEGATIVE_NUM_NOT_ALLOWED
  else if (natChars phone_id.toNat).length ≠ 8 then
    some "[Phone ID must contain exactly 8 digits]"
  else if ¬ containsId store phone_id then some APPOINTMENT_DATA_NOT_FOUND
  else none

/-- Python `set` iteration is modelled as first-occurrence order (the
engine's output only depends on membership for the ordered popular prefix,
and the unranked tail is explicitly arbitrary-order in the source). -/
def dedupFirst (l : List String) : List String :=
  l.foldl (fun acc s => if acc.any (· == s) then acc else acc ++ [s]) []

/-- `RecommendationsManager.recommend_for_customer`: name-based customer
identity, set difference against all booked slugs, popular-and-untried
prefix from `get_popular_services()` (default `top_n = 3`), up to 3 unranked
untried slugs appended, display truncated to 5; empty-combined-list
defensive fallback shows the customer's favorites among the top 3. -/
def recommend_for_customer (store : ApptStore) (phone_id : Int) : RecResult :=
  match rec_validate_phone_id store phone_id with
  | some err => RecResult.error err
  | none =>
      match lookupAppt store phone_id with
      | none => RecResult.error APPOINTMENT_DATA_NOT_FOUND
      | some target =>
          let customer_services := (store.filter fun p =>
            p.2.first_name == target.first_name &&
              p.2.last_name == target.last_name).map (·.2.service_name)
          let all_services := servicesOfStore store
          let untried_services :=
            (dedupFirst all_services).filter (¬ customer_services.contains ·)
          if untried_services.isEmpty then
            RecResult.triedAll (pyTitle target.first_name)
          else
            let popular_services := (get_popular_services store 3).map (·.1)
            let recommended_from_popular :=
              popular_services.filter (untried_services.contains ·)
            let other_services :=
              untried_services.filter (¬ recommended_from_popular.contains ·)
            let final_recommendations :=
              recommended_from_popular ++ other_services.take 3
            if final_recommendations.isEmpty then
              RecResult.favorites
                (((get_popular_services store 3).map (·.1)).filter
                  (customer_services.contains ·))
            else
              RecResult.recs ((final_recommendations.take 5).map fun s =>
                (s, recommended_from_popular.contains s))

/-! ## Concrete fixtures used by the claim theorems and witnesses -/

/-- A catalog shaped like the seeded one (`data/services_data.py` excerpt). -/
def panda_services : ServicesState :=
  { services :=
      [("thermal_baths",
          [("classic_bath",
              ⟨45, "EUR", 60, "Traditional hot spring bath with natural minerals."⟩),
            ("aroma_bath",
              ⟨55, "EUR", 70, "Aromatic bath infused with essential oils."⟩)]),
        ("massages",
          [("stone_massage",
              ⟨85, "EUR", 60, "Hot stone massage to relieve tension and stress."⟩),
            ("foot_reflex",
              ⟨50, "EUR", 40, "Reflexology of the feet."⟩)]),
        ("rituals",
          [("detox_tea", ⟨20, "EUR", 30, "Detox tea ceremony."⟩),
            ("mud_wrap", ⟨30, "EUR", 45, "Full-body mud wrap."⟩)])],
    default_currency := "EUR" }

/-- A fixed reading of the wall clock for the concrete scenarios. -/
def now2025 : DateTime := ⟨2025, 6, 1, 12, 0, 0, 0⟩

/-- Shorthand for a minute-resolution timestamp. -/
def dtm (y m d h mi : Nat) : DateTime := ⟨y, m, d, h, mi, 0, 0⟩

/-- A one-appointment store holding anna smith's stone-massage booking. -/
def annaStore : ApptStore :=
  [(12345678, ⟨"anna", "smith", "stone_massage", dtm 2030 1 1 10 0⟩)]

/-- The specification's recommendation scenario: customer `11112222` has
booked only `stone_massage` under the name anna smith; globally
`stone_massage` is booked 5 times and `aroma_bath` twice (never by anna
smith), and two further services are booked once each. -/
def scenStore : ApptStore :=
  [(11112222, ⟨"anna", "smith", "stone_massage", dtm 2030 1 1 10 0⟩),
    (21098432, ⟨"red", "fox", "stone_massage", dtm 2030 1 2 10 0⟩),
    (21745098, ⟨"steppe", "eagle", "stone_massage", dtm 2030 1 3 10 0⟩),
    (22987541, ⟨"eurasian", "badger", "stone_massage", dtm 2030 1 4 10 0⟩),
    (23804503, ⟨"eastern", "wolf", "stone_massage", dtm 2030 1 5 11 0⟩),
    (24111111, ⟨"pale", "fox", "aroma_bath", dtm 2030 1 6 10 0⟩),
    (24222222, ⟨"grey", "heron", "aroma_bath", dtm 2030 1 7 10 0⟩),
    (24333333, ⟨"brown", "bear", "detox_tea", dtm 2030 1 8 10 0⟩),
    (24444444, ⟨"snow", "hare", "mud_wrap", dtm 2030 1 9 10 0⟩)]

/-- The displayed entries the scenario produces (slug, popular-flame flag). -/
def scenRecs : List (String × Bool) :=
  [("aroma_bath", true), ("detox_tea", true), ("mud_wrap", false)]

/-- A store in which one appointment references a service absent from the
catalog (`ghost_service`), and one booking lies in the past. -/
def ghostStore : ApptStore :=
  [(11112222, ⟨"anna", "smith", "stone_massage", dtm 2020 1 1 10 0⟩),
    (21098432, ⟨"red", "fox", "ghost_service", dtm 2030 1 2 10 0⟩),
    (21745098, ⟨"steppe", "eagle", "stone_massage", dtm 2030 1 3 10 0⟩)]

/-- A store whose timestamps carry second and microsecond components (like
the seeded `datetime.now()`-derived data). -/
def microStore : ApptStore :=
  [(12345678, ⟨"anna", "smith", "stone_massage", ⟨2030, 1, 1, 10, 0, 30, 123456⟩⟩),
    (23456789, ⟨"red", "fox", "aroma_bath", ⟨2025, 2, 28, 23, 59, 59, 1⟩⟩)]

/-! ## Claim theorems -/

/-- C1: the claim says an appointment-store update that returns an error
leaves the mapping untouched.  The code violates it: updating id `12345678`
with a new first name and a nonexistent service returns the
service-not-found error, yet the first name has already been overwritten
(`update_appointment` writes each field as it validates it).  This theorem
evaluates the embedded code at that failing input. -/
theorem update_error_leaves_partial_writes :
    (update_appointment panda_services annaStore 12345678 (some "Bob") none
        (some "nonexistent_svc") none now2025).2 =
      serviceNotFoundMsg "nonexistent_svc" ∧
    (lookupAppt (update_appointment panda_services annaStore 12345678
        (some "Bob") none (some "nonexistent_svc") none now2025).1
        12345678).map (·.first_name) = some "bob" ∧
    (update_appointment panda_services annaStore 12345678 (some "Bob") none
        (some "nonexistent_svc") none now2025).1 ≠ annaStore := by
  decide

/-- C2: the claim says a successful `add_appointment` stores the service
name in slug form (lower-case, underscore-separated).  The code instead
stores `formatters.normalize_name(service_name)`, the Title-Case display
form: adding with slug `"stone_massage"` succeeds, stores lower-cased
names, but records the service as `"Stone Massage"`, not the slug — at odds
with the seeded data and with the spec.  This theorem evaluates the embedded
code at that failing input. -/
theorem add_appointment_stores_display_form :
    add_appointment panda_services [] 12345678 "Anna" "Smith" "stone_massage"
        "2030-01-01 10:00" now2025 =
      ([(12345678, ⟨"anna", "smith", "Stone Massage", dtm 2030 1 1 10 0⟩)],
        apptAddedMsg 12345678) ∧
    normalize_name "stone_massage" = "Stone Massage" ∧
    "Stone Massage" ≠ "stone_massage" := by
  decide

/-- C4: an `add_appointment` call whose other arguments are valid (valid
fresh 8-digit id, existing service, parseable date text) but whose parsed
timestamp lies strictly before `now` fails with the past-appointment
message and leaves the store unchanged. -/
theorem add_past_appointment_rejected (sm : ServicesState) (store : ApptStore)
    (phone_id : Int) (firstname lastname service_name date_time : String)
    (now dt : DateTime)
    (hid : validate_phone_id phone_id = none)
    (hfresh : containsId store phone_id = false)
    (hsvc : service_exists sm service_name = true)
    (hparse : parse_datetime date_time = some dt)
    (hpast : dt.ltb now = true) :
    add_appointment sm store phone_id firstname lastname service_name
      date_time now = (store, PAST_APPT_NOT_ALLOWED) := by
  simp [add_appointment, hid, hfresh, hsvc, hparse, hpast]

/-- C4 witness: the theorem applied to a concrete past booking. -/
theorem add_past_appointment_rejected_witness :
    add_appointment panda_services [] 12345678 "Red" "Fox" "stone_massage"
      "2020-01-01 10:00" now2025 = ([], PAST_APPT_NOT_ALLOWED) :=
  add_past_appointment_rejected panda_services [] 12345678 "Red" "Fox"
    "stone_massage" "2020-01-01 10:00" now2025 (dtm 2020 1 1 10 0)
    (by decide) (by decide) (by decide) (by decide) (by decide)

/-- C5: once a first `add_appointment` for an id has succeeded, a second
call with the same id fails with the duplicate-id message — whatever string
field values and whatever wall clock the second call sees — and leaves the
store as the first call left it. -/
theorem add_duplicate_id_rejected (sm : ServicesState) (store : ApptStore)
    (phone_id : Int) (f l s d : String) (now dt : DateTime)
    (f2 l2 s2 d2 : String) (now2 : DateTime)
    (hid : validate_phone_id phone_id = none)
    (hfresh : containsId store phone_id = false)
    (hsvc : service_exists sm s = true)
    (hparse : parse_datetime d = some dt)
    (hfut : dt.ltb now = false) :
    (add_appointment sm store phone_id f l s d now).2 = apptAddedMsg phone_id ∧
    add_appointment sm (add_appointment sm store phone_id f l s d now).1
        phone_id f2 l2 s2 d2 now2 =
      ((add_appointment sm store phone_id f l s d now).1,
        apptExistsMsg phone_id) := by
  have hstep : add_appointment sm store phone_id f l s d now =
      (store ++ [(phone_id,
          ⟨strLower f, strLower l, normalize_name s, dt⟩)],
        apptAddedMsg phone_id) := by
    simp [add_appointment, hid, hfresh, hsvc, hparse, hfut]
  refine ⟨by rw [hstep], ?_⟩
  rw [hstep]
  have hdup : containsId
      (store ++ [(phone_id, ⟨strLower f, strLower l, normalize_name s, dt⟩)])
      phone_id = true := by
    simp [containsId]
  simp [add_appointment, hid, hdup]

/-- C5 witness: the theorem applied to a concrete double booking (the second
call even passes different, individually valid, field values). -/
theorem add_duplicate_id_rejected_witness :
    (add_appointment panda_services [] 12345678 "Anna" "Smith"
        "stone_massage" "2030-01-01 10:00" now2025).2 =
      apptAddedMsg 12345678 ∧
    add_appointment panda_services
        (add_appointment panda_services [] 12345678 "Anna" "Smith"
          "stone_massage" "2030-01-01 10:00" now2025).1
        12345678 "Grey" "Heron" "aroma_bath" "02-02-2031 09:30" now2025 =
      ((add_appointment panda_services [] 12345678 "Anna" "Smith"
          "stone_massage" "2030-01-01 10:00" now2025).1,
        apptExistsMsg 12345678) :=
  add_duplicate_id_rejected panda_services [] 12345678 "Anna" "Smith"
    "stone_massage" "2030-01-01 10:00" now2025 (dtm 2030 1 1 10 0)
    "Grey" "Heron" "aroma_bath" "02-02-2031 09:30" now2025
    (by decide) (by decide) (by decide) (by decide) (by decide)

/-- C8: the claim says an `add_service` call with the currency argument
omitted and all other inputs valid succeeds with the catalog's default
currency.  The code rejects it: the `isinstance(str)` sweep runs over the
raw `currency` argument (still `None`) before the default is applied, so the
call fails with the type message and the catalog is unchanged — while the
very same inputs with the default currency passed explicitly succeed.  This
theorem evaluates the embedded code at that failing input. -/
theorem add_service_omitted_currency_rejected :
    add_service panda_services "massages" "hot_spring_ritual" 50 60
        "A guided hot spring ritual." none =
      (panda_services, PROVIDED_NOT_STR) ∧
    (add_service panda_services "massages" "hot_spring_ritual" 50 60
        "A guided hot spring ritual."
        (some panda_services.default_currency)).2 =
      addedServiceMsg "hot_spring_ritual" "massages" := by
  exact ⟨rfl, by decide⟩

/-- C10: a load whose file read fails (missing file) or whose content fails
JSON decoding returns the corresponding error message and leaves the
in-memory mapping exactly as it was. -/
theorem load_failure_preserves_store (store : ApptStore) (filename : String) :
    load_appointments store filename LoadInput.fileNotFound =
      some (store, APPOINTMENT_DATA_NOT_FOUND) ∧
    load_appointments store filename LoadInput.decodeError =
      some (store, ERROR_DECODING_JSON) := by
  exact ⟨rfl, rfl⟩

/-- The record a round trip through the JSON file reproduces: identical
fields, timestamp truncated to seconds. -/
def truncEntry (p : Int × Appointment) : Int × Appointment :=
  (p.1, { p.2 with date_time := truncSec p.2.date_time })

theorem parseEntry_save (p : Int × Appointment) (hv : ValidDate p.2.date_time) :
    parseEntry (String.mk (intChars p.1),
      { first_name := p.2.first_name
        last_name := p.2.last_name
        service_name := p.2.service_name
        date_time := String.mk (formatSecsChars p.2.date_time) }) =
      some (truncEntry p) := by
  unfold parseEntry truncEntry
  show (parseIntChars (intChars p.1)).bind _ = _
  rw [parseIntChars_intChars]
  show (parseSecsChars (formatSecsChars p.2.date_time)).bind _ = _
  rw [parseSecsChars_format hv]
  rfl

theorem buildFixed_go (store : ApptStore) :
    ∀ acc : ApptStore,
      (∀ p ∈ store, ValidDate p.2.date_time) →
      (store.map Prod.fst).Nodup →
      (∀ p ∈ store, ∀ q ∈ acc, q.1 ≠ p.1) →
      List.foldlM
          (fun acc e => (parseEntry e).map fun r => dictInsert acc r.1 r.2)
          acc (save_appointments store) =
        some (acc ++ store.map truncEntry) := by
  induction store with
  | nil =>
      intro acc _ _ _
      simp [save_appointments]
  | cons p rest ih =>
      intro acc hvd hnd hdisj
      rw [show save_appointments (p :: rest) =
          (String.mk (intChars p.1),
            { first_name := p.2.first_name
              last_name := p.2.last_name
              service_name := p.2.service_name
              date_time := String.mk (formatSecsChars p.2.date_time) }) ::
            save_appointments rest from rfl,
        List.foldlM_cons, parseEntry_save p (hvd p (List.mem_cons_self _ _))]
      have hnotin : acc.any (·.1 == (truncEntry p).1) = false := by
        simp only [List.any_eq_false, beq_iff_eq]
        intro q hq
        exact hdisj p (List.mem_cons_self _ _) q hq
      show List.foldlM _ (dictInsert acc (truncEntry p).1 (truncEntry p).2)
          (save_appointments rest) = _
      rw [show dictInsert acc (truncEntry p).1 (truncEntry p).2 =
          acc ++ [truncEntry p] from by
        unfold dictInsert
        rw [if_neg (by rw [hnotin]; decide)]]
      rw [ih (acc ++ [truncEntry p])
        (fun q hq => hvd q (List.mem_cons_of_mem _ hq))
        (by
          simp only [List.map_cons, List.nodup_cons] at hnd
          exact hnd.2)
        (by
          intro r hr q hq
          rcases List.mem_append.mp hq with hq1 | hq1
          · exact hdisj r (List.mem_cons_of_mem _ hr) q hq1
          · simp only [List.mem_singleton] at hq1
            subst hq1
            show (truncEntry p).1 ≠ r.1
            simp only [List.map_cons, List.nodup_cons] at hnd
            intro hcontra
            exact hnd.1 (hcontra ▸ List.mem_map_of_mem Prod.fst hr))]
      rw [List.append_assoc]
      rfl

/-- C3: saving an appointment store to JSON and loading from the same path
reproduces an equivalent mapping — same integer phone ids in the same
order, identical `first_name`, `last_name` and `service_name` values, and
timestamps equal to the originals at second (hence minute-or-finer)
resolution.  Hypotheses: the store's keys are distinct (a Python dict
guarantees this) and every timestamp is a constructible `datetime`. -/
theorem save_load_roundtrip (store cur : ApptStore) (filename : String)
    (hnd : (store.map Prod.fst).Nodup)
    (hvd : ∀ p ∈ store, ValidDate p.2.date_time) :
    ∃ st',
      load_appointments cur filename
          (LoadInput.dict (save_appointments store)) =
        some (st', loadedMsg filename) ∧
      st'.map Prod.fst = store.map Prod.fst ∧
      List.Forall₂ (fun p q : Int × Appointment =>
        p.1 = q.1 ∧ q.2.first_name = p.2.first_name ∧
          q.2.last_name = p.2.last_name ∧
          q.2.service_name = p.2.service_name ∧
          q.2.date_time = truncSec p.2.date_time) store st' := by
  refine ⟨store.map truncEntry, ?_, ?_, ?_⟩
  · show (buildFixed (save_appointments store)).map _ = _
    unfold buildFixed
    rw [buildFixed_go store [] hvd hnd (by simp)]
    rfl
  · simp [truncEntry]
  · rw [List.forall₂_map_right_iff]
    exact List.forall₂_same.mpr fun p _ => ⟨rfl, rfl, rfl, rfl, rfl⟩

/-- C3 witness: the theorem applied to a concrete store whose timestamps
carry microseconds, loaded over an unrelated current store. -/
theorem save_load_roundtrip_witness :
    ∃ st',
      load_appointments annaStore "appointments.json"
          (LoadInput.dict (save_appointments microStore)) =
        some (st', loadedMsg "appointments.json") ∧
      st'.map Prod.fst = microStore.map Prod.fst ∧
      List.Forall₂ (fun p q : Int × Appointment =>
        p.1 = q.1 ∧ q.2.first_name = p.2.first_name ∧
          q.2.last_name = p.2.last_name ∧
          q.2.service_name = p.2.service_name ∧
          q.2.date_time = truncSec p.2.date_time) microStore st' :=
  save_load_roundtrip microStore annaStore "appointments.json"
    (by decide) (by decide)

/-! ### Ordering lemmas for the popularity ranking -/

theorem mem_insertDesc {x z : String × Nat} {l : List (String × Nat)}
    (h : z ∈ insertDesc x l) : z = x ∨ z ∈ l := by
  induction l with
  | nil => simpa [insertDesc] using h
  | cons y ys ih =>
      unfold insertDesc at h
      by_cases hle : y.2 ≤ x.2
      · rw [if_pos hle] at h
        rcases List.mem_cons.mp h with rfl | h1
        · exact Or.inl rfl
        · exact Or.inr h1
      · rw [if_neg hle] at h
        rcases List.mem_cons.mp h with rfl | h1
        · exact Or.inr (List.mem_cons_self _ _)
        · rcases ih h1 with rfl | h2
          · exact Or.inl rfl
          · exact Or.inr (List.mem_cons_of_mem _ h2)

theorem insertDesc_pairwise {x : String × Nat} {l : List (String × Nat)}
    (h : List.Pairwise (fun a b : String × Nat => b.2 ≤ a.2) l) :
    List.Pairwise (fun a b : String × Nat => b.2 ≤ a.2) (insertDesc x l) := by
  induction l with
  | nil => simp [insertDesc]
  | cons y ys ih =>
      rw [List.pairwise_cons] at h
      unfold insertDesc
      by_cases hle : y.2 ≤ x.2
      · rw [if_pos hle, List.pairwise_cons]
        refine ⟨?_, List.pairwise_cons.mpr h⟩
        intro z hz
        rcases List.mem_cons.mp hz with rfl | hz1
        · exact hle
        · exact le_trans (h.1 z hz1) hle
      · rw [if_neg hle, List.pairwise_cons]
        refine ⟨?_, ih h.2⟩
        intro z hz
        rcases mem_insertDesc hz with rfl | hz1
        · omega
        · exact h.1 z hz1

theorem sortDesc_pairwise (l : List (String × Nat)) :
    List.Pairwise (fun a b : String × Nat => b.2 ≤ a.2) (sortDesc l) := by
  induction l with
  | nil => simp [sortDesc]
  | cons a l ih => exact insertDesc_pairwise ih

theorem filter_insertDesc (c : Nat) (x : String × Nat) (l : List (String × Nat)) :
    (insertDesc x l).filter (fun p => p.2 == c) =
      if x.2 = c then x :: l.filter (fun p => p.2 == c)
      else l.filter (fun p => p.2 == c) := by
  induction l with
  | nil =>
      unfold insertDesc
      by_cases hx : x.2 = c
      · simp [List.filter_cons, hx]
      · simp [List.filter_cons, hx]
  | cons y ys ih =>
      unfold insertDesc
      by_cases hle : y.2 ≤ x.2
      · rw [if_pos hle]
        by_cases hx : x.2 = c
        · simp [List.filter_cons, hx]
        · simp [List.filter_cons, hx]
      · rw [if_neg hle]
        by_cases hx : x.2 = c
        · have hy : ¬ y.2 = c := by omega
          rw [if_pos hx]
          simp [List.filter_cons, hy, ih, hx]
        · rw [if_neg hx]
          simp only [List.filter_cons, ih, if_neg hx]

theorem sortDesc_filter (c : Nat) (l : List (String × Nat)) :
    (sortDesc l).filter (fun p => p.2 == c) = l.filter (fun p => p.2 == c) := by
  induction l with
  | nil => rfl
  | cons a l ih =>
      show (insertDesc a (sortDesc l)).filter _ = _
      rw [filter_insertDesc]
      by_cases ha : a.2 = c
      · rw [if_pos ha, ih]
        simp [List.filter_cons, ha]
      · rw [if_neg ha, ih]
        simp [List.filter_cons, ha]

/-- C7: `get_popular_services` returns `[]` on an empty store (whatever
`top_n`) and on a non-positive `top_n` (a non-`int` argument is excluded by
the `Int` type); otherwise at most `top_n` pairs, in descending booking
count, and for every count value the returned pairs with that count form a
prefix of the first-encounter-ordered counts — the stable tie-breaking of
`Counter.most_common`. -/
theorem get_popular_services_spec (store : ApptStore) (top_n : Int) :
    (store = [] → get_popular_services store top_n = []) ∧
    (top_n ≤ 0 → get_popular_services store top_n = []) ∧
    (get_popular_services store top_n).length ≤ top_n.toNat ∧
    List.Pairwise (fun a b : String × Nat => b.2 ≤ a.2)
      (get_popular_services store top_n) ∧
    ∀ c : Nat,
      (get_popular_services store top_n).filter (fun p => p.2 == c) <+:
        (countsList (servicesOfStore store)).filter (fun p => p.2 == c) := by
  by_cases htop : top_n ≤ 0
  · have hres : get_popular_services store top_n = [] := by
      unfold get_popular_services
      rw [if_pos htop]
    refine ⟨fun _ => hres, fun _ => hres, ?_, ?_, ?_⟩
    · simp [hres]
    · simp [hres]
    · intro c
      simp only [hres, List.filter_nil]
      exact List.nil_prefix
  · by_cases hemp : (servicesOfStore store).isEmpty
    · have hres : get_popular_services store top_n = [] := by
        unfold get_popular_services
        rw [if_neg htop, if_pos hemp]
      refine ⟨fun _ => hres, fun _ => hres, ?_, ?_, ?_⟩
      · simp [hres]
      · simp [hres]
      · intro c
        simp only [hres, List.filter_nil]
        exact List.nil_prefix
    · have hres : get_popular_services store top_n =
          (sortDesc (countsList (servicesOfStore store))).take top_n.toNat := by
        unfold get_popular_services
        rw [if_neg htop, if_neg hemp]
      refine ⟨?_, fun h => absurd h htop, ?_, ?_, ?_⟩
      · intro h
        subst h
        simp [servicesOfStore] at hemp
      · rw [hres]
        exact List.length_take_le _ _
      · rw [hres]
        exact (sortDesc_pairwise _).sublist (List.take_sublist _ _)
      · intro c
        rw [hres, ← sortDesc_filter c (countsList (servicesOfStore store))]
        exact (List.take_prefix _ _).filter _

/-- C7 witness: the theorem applied to the empty store and to a negative
`top_n` on the scenario store, plus the evaluated ranking itself. -/
theorem get_popular_services_spec_witness :
    get_popular_services ([] : ApptStore) 3 = [] ∧
    get_popular_services scenStore (-2) = [] ∧
    get_popular_services scenStore 3 =
      [("stone_massage", 5), ("aroma_bath", 2), ("detox_tea", 1)] :=
  ⟨(get_popular_services_spec [] 3).1 rfl,
    (get_popular_services_spec scenStore (-2)).2.1 (by decide),
    by decide⟩

/-- C6: in the specification's scenario store, `recommend_for_customer`
for id `11112222` shows `aroma_bath` (popular and untried) before every
untried-but-unpopular entry (the unflagged ones), and displays at most 5
entries. -/
theorem recommend_scenario_lists_aroma_before_unpopular :
    recommend_for_customer scenStore 11112222 = RecResult.recs scenRecs ∧
    scenRecs.length ≤ 5 ∧
    (∀ i, i < scenRecs.length → ∀ j, j < scenRecs.length →
      (scenRecs[i]?).map Prod.fst = some "aroma_bath" →
      (scenRecs[j]?).map Prod.snd = some false → i < j) := by
  decide

/-! ### Exact-rounding lemmas for the income summary -/

theorem foldl_income (sm : ServicesState) (l : ApptStore) :
    ∀ a : ℚ,
      l.foldl
          (fun income p =>
            match get_service_data sm p.2.service_name with
            | some sd => income + sd.price
            | none => income)
          a = a + incomeSpecSum sm l := by
  induction l with
  | nil =>
      intro a
      simp [incomeSpecSum]
  | cons p rest ih =>
      intro a
      rw [List.foldl_cons, ih]
      unfold incomeSpecSum
      rw [List.map_cons, List.sum_cons]
      cases hsd : get_service_data sm p.2.service_name with
      | none => simp [hsd]
      | some sd =>
          simp only [hsd]
          ring

theorem get_service_data_mem {sm : ServicesState} {name : String}
    {sd : ServiceData} (h : get_service_data sm name = some sd) :
    ∃ cat ∈ sm.services, ∃ svc ∈ cat.2, svc.2 = sd := by
  unfold get_service_data find_service_data at h
  cases hf : sm.services.findSome? fun cat =>
      (cat.2.find? fun svc => strLower svc.1 == smNormalize name).map
        fun svc => (cat.1, svc.2) with
  | none => rw [hf] at h; simp at h
  | some pr =>
      rw [hf] at h
      rw [Option.map_some'] at h
      rw [Option.some.injEq] at h
      obtain ⟨cat, hcat, hfs⟩ := List.exists_of_findSome?_eq_some hf
      cases hfind : cat.2.find? fun svc => strLower svc.1 == smNormalize name with
      | none => rw [hfind] at hfs; simp at hfs
      | some svc =>
          rw [hfind] at hfs
          rw [Option.map_some'] at hfs
          rw [Option.some.injEq] at hfs
          refine ⟨cat, hcat, svc, List.mem_of_find?_eq_some hfind, ?_⟩
          rw [← h, ← hfs]

theorem den_one_add {p q : ℚ} (hp : p.den = 1) (hq : q.den = 1) :
    (p + q).den = 1 := by
  have hp1 := (Rat.den_eq_one_iff p).mp hp
  have hq1 := (Rat.den_eq_one_iff q).mp hq
  have : p + q = ((p.num + q.num : Int) : ℚ) := by push_cast [hp1, hq1]; ring
  rw [this, Rat.den_intCast]

theorem sum_den_one {l : List ℚ} (h : ∀ q ∈ l, (q * 100).den = 1) :
    (l.sum * 100).den = 1 := by
  induction l with
  | nil => norm_num
  | cons a l ih =>
      rw [List.sum_cons, add_mul]
      exact den_one_add (h a (List.mem_cons_self _ _))
        (ih fun q hq => h q (List.mem_cons_of_mem _ hq))

theorem round2_exact {q : ℚ} (h : (q * 100).den = 1) : round2 q = q := by
  have hnum : ((q * 100).num : ℚ) = q * 100 := (Rat.den_eq_one_iff _).mp h
  have hgen : ∀ n : Int, roundHalfEven ((n : Int) : ℚ) = n := by
    intro n
    unfold roundHalfEven
    rw [Int.floor_intCast, sub_self, if_pos (by norm_num : (0 : ℚ) < 1 / 2)]
  have hint : roundHalfEven (q * 100) = (q * 100).num := by
    conv_lhs => rw [← hnum]
    rw [hgen]
  unfold round2
  rw [hint, hnum]
  field_simp

/-- C9: with a catalog of two-decimal prices (every currency amount the
system handles), `get_total_income` equals the plain sum, over every
appointment in the store — past ones included — of the catalog price of its
referenced service, an unresolved `service_name` contributing exactly zero;
the embedding is total, so no error is signalled for the unresolved case. -/
theorem total_income_spec (sm : ServicesState) (store : ApptStore)
    (hp : ∀ cat ∈ sm.services, ∀ svc ∈ cat.2, (svc.2.price * 100).den = 1) :
    get_total_income sm store = incomeSpecSum sm store := by
  unfold get_total_income
  rw [foldl_income, zero_add]
  apply round2_exact
  unfold incomeSpecSum
  apply sum_den_one
  intro q hq
  rcases List.mem_map.mp hq with ⟨p, -, rfl⟩
  cases hsd : get_service_data sm p.2.service_name with
  | none => simp [hsd]
  | some sd =>
      simp only [hsd]
      obtain ⟨cat, hcat, svc, hsvc, rfl⟩ := get_service_data_mem hsd
      exact hp cat hcat svc hsvc

/-- C9 witness: the theorem applied to the seeded catalog and a store in
which one appointment's service does not resolve (`ghost_service`) and one
booking lies in the past; the silent zero contribution leaves a total of
`85 + 0 + 85 = 170`. -/
theorem total_income_spec_witness :
    get_total_income panda_services ghostStore =
      incomeSpecSum panda_services ghostStore ∧
    incomeSpecSum panda_services ghostStore = 170 := by
  constructor
  · apply total_income_spec
    intro cat hcat svc hsvc
    simp only [panda_services, List.mem_cons, List.not_mem_nil, or_false] at hcat
    rcases hcat with rfl | rfl | rfl <;>
      simp only [List.mem_cons, List.not_mem_nil, or_false] at hsvc <;>
      rcases hsvc with rfl | rfl <;> norm_num
  · have hmap : ghostStore.map (fun p =>
        match get_service_data panda_services p.2.service_name with
        | some sd => sd.price
        | none => 0) = [85, 0, 85] := by decide
    unfold incomeSpecSum
    rw [hmap]
    norm_num

end PandaSpa
